import Mathlib

/-!
# Shared grocery list server: shallow embedding and verification

This file embeds the domain operations of the shared-grocery-list server
(handlers `addGroceryItem`, `toggleItemCompletion`, `removeGroceryItem`,
`getCurrentWeekList`, and the week-start computation they share) as pure
Lean functions over an explicit database state, and proves the spec's
testable properties about them.

Modelling conventions:
* The relational store is a record of five lists of rows plus the serial
  counters for generated ids.  `db.select().where(eq(col, v))` becomes
  `List.filter`; taking `result[0]` becomes matching on the head of the
  filtered list, exactly as the handlers check `length === 0` first.
* JS `Date` values are modelled as a pair (days since the Unix epoch,
  milliseconds within the day), which is the granularity at which the
  handlers use dates (`getDay`, `setDate`, `setHours(0,0,0,0)`).
  Epoch day 0 (1970-01-01) is a Thursday, so `getDay = (day + 4) % 7`.
  Local time is identified with UTC (the handlers never convert zones).
* The `date` column `week_start` stores only a calendar date
  (`toISOString().split('T')[0]`), modelled as the epoch-day number; the
  SQL string comparisons `gte`/`lte` on `YYYY-MM-DD` strings agree with
  integer comparison of epoch days.
* Handlers that `throw new Error(...)` become functions into `Except`
  carrying the error and its exact message; a thrown error aborts the
  handler before any insert it has not yet executed, so an `.error`
  result carries no successor state.
-/

/-- Milliseconds in a day, as used by JS `Date` arithmetic. -/
def msPerDay : Int := 86400000

/-- A point in time at the granularity the handlers use: days since the
Unix epoch plus milliseconds within the day. -/
structure Instant where
  day : Int
  msInDay : Int
deriving DecidableEq, Repr

/-- JS `Date.prototype.getDay`: 0 = Sunday, 1 = Monday, …, 6 = Saturday.
Epoch day 0 was a Thursday, hence the offset 4. -/
def Instant.getDay (t : Instant) : Int :=
  (t.day + 4) % 7

/-- `getCurrentWeekStart` from `add_grocery_item.ts` lines 8–16: from `now`
compute `mondayOffset = dayOfWeek === 0 ? -6 : 1 - dayOfWeek`, add it to the
current date and zero the time of day.  The result is a midnight, so we
return its epoch-day number. -/
def getCurrentWeekStart (now : Instant) : Int :=
  now.day + (if now.getDay = 0 then -6 else 1 - now.getDay)

/-- A user row (`usersTable`). -/
structure User where
  id : Int
  name : String
  email : String
  created_at : Instant
deriving DecidableEq, Repr

/-- A couple row (`couplesTable`). -/
structure Couple where
  id : Int
  user1_id : Int
  user2_id : Int
  created_at : Instant
deriving DecidableEq, Repr

/-- A category row (`categoriesTable`). -/
structure Category where
  id : Int
  name : String
  created_at : Instant
deriving DecidableEq, Repr

/-- A grocery-list row (`groceryListsTable`); `week_start` is a date-only
column, stored as the epoch-day number of the week's Monday. -/
structure GroceryList where
  id : Int
  couple_id : Int
  week_start : Int
  created_at : Instant
deriving DecidableEq, Repr

/-- A grocery-item row (`groceryItemsTable`). -/
structure GroceryItem where
  id : Int
  list_id : Int
  category_id : Int
  name : String
  quantity : Option String
  is_completed : Bool
  added_by_user_id : Int
  completed_by_user_id : Option Int
  created_at : Instant
  completed_at : Option Instant
deriving DecidableEq, Repr

/-- The relational store: the five tables in insertion order plus the
serial counters that generate the next `grocery_lists` / `grocery_items`
primary keys. -/
structure DB where
  users : List User
  couples : List Couple
  categories : List Category
  lists : List GroceryList
  items : List GroceryItem
  nextListId : Int
  nextItemId : Int
deriving DecidableEq, Repr

/-- The errors the handlers throw.  `userNotInCouple` is the spec's
InvalidState; the others are NotFound. -/
inductive DomainError where
  | userNotFound (id : Int)
  | categoryNotFound (id : Int)
  | listNotFound (id : Int)
  | itemNotFound (id : Int)
  | userNotInCouple (id : Int)
deriving DecidableEq, Repr

deriving instance DecidableEq for Except

/-- The exact `Error` message text each handler throws (tests match on
these messages, so the wording is part of the observable contract). -/
def DomainError.message : DomainError → String
  | .userNotFound i => "User with id " ++ toString i ++ " does not exist"
  | .categoryNotFound i => "Category with id " ++ toString i ++ " does not exist"
  | .listNotFound i => "Grocery list with id " ++ toString i ++ " does not exist"
  | .itemNotFound i => "Grocery item with id " ++ toString i ++ " not found"
  | .userNotInCouple i => "User with id " ++ toString i ++ " is not part of any couple"

/-- Spec error taxonomy: NotFound (referenced entity absent). -/
def DomainError.isNotFound : DomainError → Bool
  | .userNotInCouple _ => false
  | _ => true

/-- Spec error taxonomy: InvalidState (user not in any couple). -/
def DomainError.isInvalidState : DomainError → Bool
  | .userNotInCouple _ => true
  | _ => false

/-- Handler-level input of `addGroceryItem` (`AddGroceryItemInput`).
`list_id := none` models the property being absent on the object the
handler receives, as the tests produce with `delete input.list_id`. -/
structure AddGroceryItemInput where
  list_id : Option Int
  category_id : Int
  name : String
  quantity : Option String
  added_by_user_id : Int
deriving DecidableEq, Repr

/-- Input of `toggleItemCompletion`. -/
structure ToggleItemCompletionInput where
  item_id : Int
  user_id : Int
deriving DecidableEq, Repr

/-- Input of `removeGroceryItem`. -/
structure RemoveGroceryItemInput where
  item_id : Int
deriving DecidableEq, Repr

/-- Input of `getCurrentWeekList`. -/
structure GetCurrentWeekListInput where
  couple_id : Int
deriving DecidableEq, Repr

/-- JS truthiness of `input.list_id` in `if (input.list_id)`: an absent
property and the number 0 are both falsy. -/
def jsTruthyNum : Option Int → Bool
  | none => false
  | some n => n != 0

/-- JS `input.quantity || null`: absent and the falsy empty string both
become null. -/
def jsOrNullStr : Option String → Option String
  | none => none
  | some s => if s = "" then none else some s

/-- The values clause of the list insert (`add_grocery_item.ts` lines
96–102): a new current-week list for the resolved couple, with the next
serial list id. -/
def freshWeekList (db : DB) (now : Instant) (coupleId : Int) : GroceryList :=
  { id := db.nextListId, couple_id := coupleId, week_start := getCurrentWeekStart now,
    created_at := now }

/-- List-resolution step of `addGroceryItem` (`add_grocery_item.ts` lines
40–108).  With a truthy `list_id` it validates the list exists (the couple
is read but not re-validated); otherwise it scans both `user1_id` and
`user2_id` roles for the acting user's couples, takes the first match,
and finds or creates the list for (that couple, current week start). -/
def resolveList (db : DB) (now : Instant) (input : AddGroceryItemInput) :
    Except DomainError (Int × DB) :=
  if jsTruthyNum input.list_id then
    let lid := input.list_id.getD 0
    match db.lists.filter (fun l => l.id == lid) with
    | [] => .error (.listNotFound lid)
    | _ :: _ => .ok (lid, db)
  else
    let userCouples := db.couples.filter (fun c => c.user1_id == input.added_by_user_id)
    let userCouples2 := db.couples.filter (fun c => c.user2_id == input.added_by_user_id)
    match userCouples ++ userCouples2 with
    | [] => .error (.userNotInCouple input.added_by_user_id)
    | couple :: _ =>
      let weekStart := getCurrentWeekStart now
      match db.lists.filter (fun l => l.couple_id == couple.id && l.week_start == weekStart) with
      | [] =>
        let newList := freshWeekList db now couple.id
        .ok (newList.id,
             { db with lists := db.lists ++ [newList], nextListId := db.nextListId + 1 })
      | l :: _ => .ok (l.id, db)

/-- The values clause of the item insert (`add_grocery_item.ts` lines
110–123): the new row gets the next serial id, the resolved list,
`is_completed := false` and both completion fields null. -/
def insertedItem (db1 : DB) (now : Instant) (input : AddGroceryItemInput)
    (listId : Int) : GroceryItem :=
  { id := db1.nextItemId, list_id := listId, category_id := input.category_id,
    name := input.name, quantity := jsOrNullStr input.quantity,
    is_completed := false, added_by_user_id := input.added_by_user_id,
    completed_by_user_id := none, created_at := now, completed_at := none }

/-- `addGroceryItem` (`add_grocery_item.ts` lines 18–130): validate the
acting user, validate the category, resolve the target list, then insert
the item with `is_completed := false` and both completion fields null. -/
def addGroceryItem (db : DB) (now : Instant) (input : AddGroceryItemInput) :
    Except DomainError (GroceryItem × DB) :=
  match db.users.filter (fun u => u.id == input.added_by_user_id) with
  | [] => .error (.userNotFound input.added_by_user_id)
  | _ :: _ =>
    match db.categories.filter (fun c => c.id == input.category_id) with
    | [] => .error (.categoryNotFound input.category_id)
    | _ :: _ =>
      match resolveList db now input with
      | .error e => .error e
      | .ok (listId, db1) =>
        let item := insertedItem db1 now input listId
        .ok (item, { db1 with items := db1.items ++ [item], nextItemId := db1.nextItemId + 1 })

/-- The `set({...})` clause of the toggle handler: flip the flag read
from the current row (`isCurrentlyCompleted`) and write the acting user
and current time into the completion fields when the new state is
complete, null otherwise. -/
def toggleUpdate (isCurrentlyCompleted : Bool) (userId : Int) (now : Instant)
    (i : GroceryItem) : GroceryItem :=
  { i with
    is_completed := !isCurrentlyCompleted
    completed_by_user_id := if !isCurrentlyCompleted then some userId else none
    completed_at := if !isCurrentlyCompleted then some now else none }

/-- `toggleItemCompletion` (toggle handler lines 6–37): read the row,
fail NotFound when absent, else apply `toggleUpdate` to every row with
the given id (the id is the primary key, so at most one in well-formed
states) and return the updated row. -/
def toggleItemCompletion (db : DB) (now : Instant) (input : ToggleItemCompletionInput) :
    Except DomainError (GroceryItem × DB) :=
  match db.items.filter (fun i => i.id == input.item_id) with
  | [] => .error (.itemNotFound input.item_id)
  | currentItem :: _ =>
    .ok (toggleUpdate currentItem.is_completed input.user_id now currentItem,
         { db with items := db.items.map fun i =>
            if i.id == input.item_id then
              toggleUpdate currentItem.is_completed input.user_id now i
            else i })

/-- `removeGroceryItem` (`remove_grocery_item.ts` lines 7–20): delete the
row, then report `success := rowCount > 0`; a missing id is not an error. -/
def removeGroceryItem (db : DB) (input : RemoveGroceryItemInput) : Bool × DB :=
  let remaining := db.items.filter (fun i => i.id != input.item_id)
  let rowCount := db.items.length - remaining.length
  (decide (rowCount > 0), { db with items := remaining })

/-- `getCurrentWeekList` (query handler lines 10–64): recompute the week
window with the handler's own copy of the week-start policy
(`daysToMonday = dayOfWeek === 0 ? 6 : dayOfWeek - 1`, week end = start
+ 6 days at 23:59:59.999, both truncated to date strings), then inner-join
items to their list and their category, keeping rows of the given couple
whose list week-start lies in the window, and return each item paired
with its full category record. -/
def getCurrentWeekList (db : DB) (now : Instant) (input : GetCurrentWeekListInput) :
    List (GroceryItem × Category) :=
  let dayOfWeek := now.getDay
  let daysToMonday := if dayOfWeek = 0 then 6 else dayOfWeek - 1
  let currentWeekStart := now.day - daysToMonday
  let currentWeekEnd := currentWeekStart + 6
  db.items.flatMap fun item =>
    (db.lists.filter fun l => l.id == item.list_id).flatMap fun list =>
      (db.categories.filter fun c => c.id == item.category_id).flatMap fun cat =>
        if list.couple_id == input.couple_id
            && decide (currentWeekStart ≤ list.week_start)
            && decide (list.week_start ≤ currentWeekEnd)
        then [(item, cat)] else []

/-- A raw payload for the `addGroceryItem` RPC before zod validation.
`none` in the outer `Option` models the key being absent; `quantity`
may also be present with value null (`some none`). -/
structure RawAddGroceryItemPayload where
  list_id : Option Int
  category_id : Option Int
  name : Option String
  quantity : Option (Option String)
  added_by_user_id : Option Int
deriving DecidableEq, Repr

/-- `addGroceryItemInputSchema` (`schema.ts` lines 87–95) as an
acceptance predicate: `list_id: z.number()`, `category_id: z.number()`,
`name: z.string().min(1)`, `quantity: z.string().nullable().optional()`,
`added_by_user_id: z.number()`.  Only `quantity` carries `.optional()`,
so a payload whose `list_id` key is absent fails validation. -/
def addGroceryItemInputSchemaAccepts (p : RawAddGroceryItemPayload) : Bool :=
  p.list_id.isSome && p.category_id.isSome &&
    (match p.name with
     | some s => decide (1 ≤ s.length)
     | none => false) &&
    p.added_by_user_id.isSome

/-- The completion invariant on one item row: both completion fields are
non-null exactly when the completion flag is set. -/
def ItemConsistent (i : GroceryItem) : Prop :=
  (i.completed_by_user_id ≠ none ∧ i.completed_at ≠ none) ↔ i.is_completed = true

instance (i : GroceryItem) : Decidable (ItemConsistent i) := by
  unfold ItemConsistent; infer_instance

/-- The completion invariant over every item row of the store. -/
def DBConsistent (db : DB) : Prop :=
  ∀ i ∈ db.items, ItemConsistent i

instance (db : DB) : Decidable (DBConsistent db) := by
  unfold DBConsistent; infer_instance

/-- One successful application of any of the three item operations. -/
inductive ItemOpStep : DB → DB → Prop where
  | add {db : DB} (now : Instant) (input : AddGroceryItemInput)
      {item : GroceryItem} {db' : DB} :
      addGroceryItem db now input = .ok (item, db') → ItemOpStep db db'
  | toggle {db : DB} (now : Instant) (input : ToggleItemCompletionInput)
      {item : GroceryItem} {db' : DB} :
      toggleItemCompletion db now input = .ok (item, db') → ItemOpStep db db'
  | remove (db : DB) (input : RemoveGroceryItemInput) :
      ItemOpStep db (removeGroceryItem db input).2

/-- States reachable from `db` by the item operations, run sequentially. -/
def ReachableBy (db db' : DB) : Prop :=
  Relation.ReflTransGen ItemOpStep db db'

/-- Fixture timestamp for rows of the concrete test states. -/
def t0 : Instant := ⟨0, 0⟩

/-- Epoch day 4 is 1970-01-05, a Monday; 10:00 in the morning. -/
def mondayNow : Instant := ⟨4, 36000000⟩

/-- A later instant in the same week (the Tuesday, 09:00). -/
def tuesdayNow : Instant := ⟨5, 32400000⟩

/-- Concrete store: two users forming one couple, one category, no lists
or items yet. -/
def baseDB : DB :=
  { users := [⟨1, "Alice", "alice@example.com", t0⟩, ⟨2, "Bob", "bob@example.com", t0⟩],
    couples := [⟨1, 1, 2, t0⟩],
    categories := [⟨1, "Produce", t0⟩],
    lists := [],
    items := [],
    nextListId := 1,
    nextItemId := 1 }

/-- Handler input adding "Bananas" with no list reference, acting user 1. -/
def bananasInput : AddGroceryItemInput :=
  { list_id := none, category_id := 1, name := "Bananas", quantity := none,
    added_by_user_id := 1 }

/-- A completed item row: completed by user 1 at `t0`. -/
def completedItem : GroceryItem :=
  { id := 1, list_id := 1, category_id := 1, name := "Milk", quantity := none,
    is_completed := true, added_by_user_id := 1, completed_by_user_id := some 1,
    created_at := t0, completed_at := some t0 }

/-- Concrete store holding `completedItem` on an existing week list. -/
def toggleCexDB : DB :=
  { baseDB with
    lists := [⟨1, 1, 4, t0⟩]
    items := [completedItem]
    nextListId := 2
    nextItemId := 2 }

/-- An incomplete item row satisfying the completion invariant. -/
def incompleteItem : GroceryItem :=
  { id := 1, list_id := 1, category_id := 1, name := "Eggs", quantity := some "12",
    is_completed := false, added_by_user_id := 2, completed_by_user_id := none,
    created_at := t0, completed_at := none }

/-- Concrete store holding `incompleteItem` on an existing week list. -/
def incompleteDB : DB :=
  { baseDB with
    lists := [⟨1, 1, 4, t0⟩]
    items := [incompleteItem]
    nextListId := 2
    nextItemId := 2 }

/-- Two toggles of item 1 by user 2 at `mondayNow`, run in sequence. -/
def twiceToggledResult : Except DomainError (GroceryItem × DB) :=
  match toggleItemCompletion toggleCexDB mondayNow ⟨1, 2⟩ with
  | .error e => .error e
  | .ok r => toggleItemCompletion r.2 mondayNow ⟨1, 2⟩

/-- Concrete store where user 1 is `user2` of couple 1 (stored first) and
`user1` of couple 2 (stored second). -/
def multiCoupleDB : DB :=
  { users := [⟨1, "Alice", "alice@example.com", t0⟩, ⟨2, "Bob", "bob@example.com", t0⟩,
              ⟨3, "Carol", "carol@example.com", t0⟩],
    couples := [⟨1, 2, 1, t0⟩, ⟨2, 1, 3, t0⟩],
    categories := [⟨1, "Produce", t0⟩],
    lists := [],
    items := [],
    nextListId := 1,
    nextItemId := 1 }

/-- The "Bananas" payload with no `list_id` key, as the spec's examples
send it. -/
def bananasPayloadNoList : RawAddGroceryItemPayload :=
  { list_id := none, category_id := some 1, name := some "Bananas",
    quantity := none, added_by_user_id := some 1 }

/-- Handler input whose acting user 999 does not exist in `baseDB`. -/
def unknownUserInput : AddGroceryItemInput :=
  { list_id := none, category_id := 1, name := "Bananas", quantity := none,
    added_by_user_id := 999 }

/-- The week-start computation duplicated in `getCurrentWeekList`
(`daysToMonday`, subtracted) equals the one in `addGroceryItem`
(`mondayOffset`, added): the spec's §4.1 policy has one value. -/
theorem weekStart_sub_eq (now : Instant) :
    now.day - (if now.getDay = 0 then 6 else now.getDay - 1) = getCurrentWeekStart now := by
  unfold getCurrentWeekStart
  by_cases h : now.getDay = 0 <;> simp only [h, if_true, if_false] <;> omega

/-- C2: for every `now` (any valid time of day), `getCurrentWeekStart`
yields a Monday at 00:00:00 — the returned day has weekday index 1 and
its timestamp is a day boundary — with
week-start ≤ now ≤ week-start + 6 days 23:59:59.999; and it lies 6 days
in the past on a Sunday, `(weekday index − 1)` days in the past
otherwise, where Monday has index 1 and Sunday index 0. -/
theorem getCurrentWeekStart_spec (now : Instant)
    (hms0 : 0 ≤ now.msInDay) (hms : now.msInDay < msPerDay) :
    (getCurrentWeekStart now + 4) % 7 = 1 ∧
    getCurrentWeekStart now * msPerDay ≤ now.day * msPerDay + now.msInDay ∧
    now.day * msPerDay + now.msInDay ≤
      getCurrentWeekStart now * msPerDay + 6 * msPerDay + (msPerDay - 1) ∧
    getCurrentWeekStart now =
      now.day - (if now.getDay = 0 then 6 else now.getDay - 1) := by
  have hd : getCurrentWeekStart now =
      now.day + (if (now.day + 4) % 7 = 0 then -6 else 1 - (now.day + 4) % 7) := rfl
  have hg : now.getDay = (now.day + 4) % 7 := rfl
  unfold msPerDay at *
  rcases eq_or_ne ((now.day + 4) % 7) 0 with h | h
  · rw [hd, hg, if_pos h, if_pos h]
    omega
  · rw [hd, hg, if_neg h, if_neg h]
    omega

/-- Witness for `getCurrentWeekStart_spec` at the concrete instant
`mondayNow` (1970-01-05, 10:00). -/
theorem getCurrentWeekStart_spec_witness :
    (getCurrentWeekStart mondayNow + 4) % 7 = 1 ∧
    getCurrentWeekStart mondayNow * msPerDay ≤
      mondayNow.day * msPerDay + mondayNow.msInDay ∧
    mondayNow.day * msPerDay + mondayNow.msInDay ≤
      getCurrentWeekStart mondayNow * msPerDay + 6 * msPerDay + (msPerDay - 1) ∧
    getCurrentWeekStart mondayNow =
      mondayNow.day - (if mondayNow.getDay = 0 then 6 else mondayNow.getDay - 1) :=
  getCurrentWeekStart_spec mondayNow (by decide) (by decide)

/-- Filtering by `p` after a conditional row update that does not change
`p` applies the update pointwise to the filtered rows. -/
theorem filter_map_update {α : Type} (p : α → Bool) (g : α → α)
    (hg : ∀ x, p (g x) = p x) (l : List α) :
    (l.map fun x => if p x then g x else x).filter p = (l.filter p).map g := by
  induction l with
  | nil => rfl
  | cons a t ih =>
    by_cases h : p a = true
    · simp [h, hg, ih]
    · simp [h, ih]

/-- A conditional row update followed by a second one that cancels it on
every affected row of `l` restores `l`. -/
theorem map_update_cancel {α : Type} (p : α → Bool) (g1 g2 : α → α) (l : List α)
    (hg1 : ∀ x, p (g1 x) = p x) :
    (∀ x ∈ l, p x = true → g2 (g1 x) = x) →
    ((l.map fun x => if p x then g1 x else x).map fun x => if p x then g2 x else x) = l := by
  induction l with
  | nil => intro _; rfl
  | cons a t ih =>
    intro hcancel
    have ht := ih (fun x hx hpx => hcancel x (List.mem_cons_of_mem a hx) hpx)
    by_cases h : p a = true
    · have hca := hcancel a (List.mem_cons_self a t) h
      simp [h, hg1, hca, ht]
    · simp [h, ht]

/-- Successful-toggle shape: once the filtered row is known, the handler
returns the updated head and maps `toggleUpdate` over the matching rows. -/
theorem toggleItemCompletion_eq_ok (db : DB) (now : Instant) (iid uid : Int)
    (item : GroceryItem) (rest : List GroceryItem)
    (hf : db.items.filter (fun i => i.id == iid) = item :: rest) :
    toggleItemCompletion db now ⟨iid, uid⟩ = .ok
      (toggleUpdate item.is_completed uid now item,
       { db with items := db.items.map fun i =>
          if i.id == iid then toggleUpdate item.is_completed uid now i else i }) := by
  simp only [toggleItemCompletion]
  rw [hf]

/-- C5: `toggleItemCompletion` fails with NotFound exactly when no item
with the given id exists; otherwise it flips `is_completed` and, when
transitioning to complete, sets `completed_by_user_id` to the acting
user and `completed_at` to the current time, while when transitioning to
incomplete it sets both to null, returning the updated row. -/
theorem toggleItemCompletion_spec (db : DB) (now : Instant)
    (input : ToggleItemCompletionInput) :
    (toggleItemCompletion db now input = .error (.itemNotFound input.item_id) ↔
      db.items.filter (fun i => i.id == input.item_id) = []) ∧
    (∀ item rest, db.items.filter (fun i => i.id == input.item_id) = item :: rest →
      toggleItemCompletion db now input = .ok
        ({ item with
            is_completed := !item.is_completed
            completed_by_user_id := if item.is_completed then none else some input.user_id
            completed_at := if item.is_completed then none else some now },
         { db with items := db.items.map fun i =>
            if i.id == input.item_id then
              toggleUpdate item.is_completed input.user_id now i
            else i })) := by
  have hinp : (⟨input.item_id, input.user_id⟩ : ToggleItemCompletionInput) = input := rfl
  constructor
  · constructor
    · intro h
      cases hfil : db.items.filter (fun i => i.id == input.item_id) with
      | nil => rfl
      | cons a t =>
        have h2 := toggleItemCompletion_eq_ok db now input.item_id input.user_id a t hfil
        rw [hinp] at h2
        rw [h2] at h
        simp at h
    · intro hf
      simp only [toggleItemCompletion]
      rw [hf]
  · intro item rest hf
    have h2 := toggleItemCompletion_eq_ok db now input.item_id input.user_id item rest hf
    rw [hinp] at h2
    rw [h2]
    cases hc : item.is_completed <;> simp [toggleUpdate, hc]

/-- Witness for `toggleItemCompletion_spec`: toggling the concrete
completed item 1 in `toggleCexDB` as user 2 clears both completion
fields. -/
theorem toggleItemCompletion_spec_witness :
    toggleItemCompletion toggleCexDB mondayNow ⟨1, 2⟩ = .ok
      ({ completedItem with
          is_completed := !completedItem.is_completed
          completed_by_user_id := if completedItem.is_completed then none else some 2
          completed_at := if completedItem.is_completed then none else some mondayNow },
       { toggleCexDB with items := toggleCexDB.items.map fun i =>
          if i.id == 1 then toggleUpdate completedItem.is_completed 2 mondayNow i
          else i }) :=
  (toggleItemCompletion_spec toggleCexDB mondayNow ⟨1, 2⟩).2 completedItem [] (by decide)

/-- C4 fails as stated: toggling the completed item 1 of `toggleCexDB`
twice (user 2, at `mondayNow`) does not return it to its original state;
the pair of toggles overwrites `completed_by_user_id` and `completed_at`
with the second toggle's acting user and current time. -/
theorem toggleItemCompletion_twice_counterexample :
    completedItem ∈ toggleCexDB.items ∧
    completedItem.is_completed = true ∧
    twiceToggledResult = .ok
      ({ completedItem with completed_by_user_id := some 2, completed_at := some mondayNow },
       { toggleCexDB with
         items := [{ completedItem with completed_by_user_id := some 2, completed_at := some mondayNow }] }) ∧
    ({ completedItem with completed_by_user_id := some 2, completed_at := some mondayNow } : GroceryItem)
      ≠ completedItem := by
  decide

/-- C4 amended: for an item that satisfies the completion invariant and
is currently incomplete, toggling twice (any acting users, any times)
returns both the item and the whole store to their original state; for a
completed item only `is_completed` round-trips, the completion fields
ending as the second toggle's acting user and time. -/
theorem toggleItemCompletion_twice (db : DB) (n1 n2 : Instant) (u1 u2 iid : Int)
    (item : GroceryItem)
    (hf : db.items.filter (fun i => i.id == iid) = [item])
    (hc : item.is_completed = false)
    (hb : item.completed_by_user_id = none)
    (ha : item.completed_at = none) :
    ∃ mid db1,
      toggleItemCompletion db n1 ⟨iid, u1⟩ = .ok (mid, db1) ∧
      toggleItemCompletion db1 n2 ⟨iid, u2⟩ = .ok (item, db) := by
  have hpres : ∀ x : GroceryItem,
      ((toggleUpdate item.is_completed u1 n1 x).id == iid) = (x.id == iid) := fun _ => rfl
  refine ⟨toggleUpdate item.is_completed u1 n1 item,
    { db with items := db.items.map fun i =>
        if i.id == iid then toggleUpdate item.is_completed u1 n1 i else i },
    toggleItemCompletion_eq_ok db n1 iid u1 item [] hf, ?_⟩
  have hf2 : (db.items.map fun i =>
      if i.id == iid then toggleUpdate item.is_completed u1 n1 i else i).filter
        (fun i => i.id == iid) = [toggleUpdate item.is_completed u1 n1 item] := by
    rw [filter_map_update (fun i => i.id == iid) (toggleUpdate item.is_completed u1 n1)
      hpres, hf]
    rfl
  have hstep := toggleItemCompletion_eq_ok
    { db with items := db.items.map fun i =>
        if i.id == iid then toggleUpdate item.is_completed u1 n1 i else i }
    n2 iid u2 (toggleUpdate item.is_completed u1 n1 item) [] hf2
  rw [hstep]
  have hone : toggleUpdate (toggleUpdate item.is_completed u1 n1 item).is_completed u2 n2
      (toggleUpdate item.is_completed u1 n1 item) = item := by
    cases item
    simp_all [toggleUpdate]
  have hmem : ∀ x ∈ db.items, (x.id == iid) = true → x = item := by
    intro x hx hpx
    have hxf : x ∈ db.items.filter (fun i => i.id == iid) := List.mem_filter.mpr ⟨hx, hpx⟩
    rw [hf] at hxf
    simpa using hxf
  have hcancel : ∀ x ∈ db.items, (x.id == iid) = true →
      toggleUpdate (toggleUpdate item.is_completed u1 n1 item).is_completed u2 n2
        (toggleUpdate item.is_completed u1 n1 x) = x := by
    intro x hx hpx
    rw [hmem x hx hpx]
    exact hone
  have hitems := map_update_cancel (fun i => i.id == iid)
    (toggleUpdate item.is_completed u1 n1)
    (toggleUpdate (toggleUpdate item.is_completed u1 n1 item).is_completed u2 n2)
    db.items hpres hcancel
  rw [hone, hitems]

/-- Witness for `toggleItemCompletion_twice`: the concrete incomplete
item 1 of `incompleteDB`, toggled by user 1 and then user 2 at different
times, comes back to exactly the original row and store. -/
theorem toggleItemCompletion_twice_witness :
    ∃ mid db1,
      toggleItemCompletion incompleteDB mondayNow ⟨1, 1⟩ = .ok (mid, db1) ∧
      toggleItemCompletion db1 tuesdayNow ⟨1, 2⟩ = .ok (incompleteItem, incompleteDB) :=
  toggleItemCompletion_twice incompleteDB mondayNow tuesdayNow 1 2 1 incompleteItem
    (by decide) (by decide) (by decide) (by decide)

/-- C8: `removeGroceryItem` deletes the row if present and reports
success exactly when a row was removed; a missing id yields
`success = false` rather than an error, and removing the same id again
reports `false` the second time. -/
theorem removeGroceryItem_spec (db : DB) (iid : Int) :
    ((removeGroceryItem db ⟨iid⟩).1 = true ↔ ∃ i ∈ db.items, i.id = iid) ∧
    (removeGroceryItem db ⟨iid⟩).2.items = db.items.filter (fun i => i.id != iid) ∧
    (removeGroceryItem (removeGroceryItem db ⟨iid⟩).2 ⟨iid⟩).1 = false := by
  refine ⟨?_, rfl, ?_⟩
  · simp only [removeGroceryItem, decide_eq_true_eq, gt_iff_lt]
    have hle := List.length_filter_le (fun i => i.id != iid) db.items
    constructor
    · intro h
      have hlt : (db.items.filter fun i => i.id != iid).length < db.items.length := by
        omega
      obtain ⟨x, hx, hpx⟩ := List.length_filter_lt_length_iff_exists.mp hlt
      exact ⟨x, hx, by simpa using hpx⟩
    · rintro ⟨i, hi, rfl⟩
      have hlt : (db.items.filter fun x => x.id != i.id).length < db.items.length :=
        List.length_filter_lt_length_iff_exists.mpr ⟨i, hi, by simp⟩
      omega
  · simp only [removeGroceryItem]
    have hff : ((db.items.filter fun i => i.id != iid).filter fun i => i.id != iid)
        = db.items.filter fun i => i.id != iid := by
      rw [List.filter_filter]
      simp
    simp [hff]

/-- Membership in a conditional singleton. -/
theorem mem_ite_singleton {α : Type} (a x : α) (p : Prop) [Decidable p] :
    (a ∈ if p then [x] else []) ↔ p ∧ a = x := by
  by_cases h : p <;> simp [h]

/-- C7: `getCurrentWeekList` returns exactly the items whose owning list
belongs to the given couple and whose list week-start lies in the
current week window (Monday through Sunday, inclusive), each paired with
its full category record; items of other couples or of lists outside
the window are excluded. -/
theorem getCurrentWeekList_spec (db : DB) (now : Instant) (cid : Int)
    (it : GroceryItem) (cat : Category) :
    (it, cat) ∈ getCurrentWeekList db now ⟨cid⟩ ↔
      it ∈ db.items ∧ cat ∈ db.categories ∧ cat.id = it.category_id ∧
      ∃ l ∈ db.lists, l.id = it.list_id ∧ l.couple_id = cid ∧
        getCurrentWeekStart now ≤ l.week_start ∧
        l.week_start ≤ getCurrentWeekStart now + 6 := by
  simp only [getCurrentWeekList, weekStart_sub_eq, List.mem_flatMap, List.mem_filter,
    mem_ite_singleton, Bool.and_eq_true, beq_iff_eq, decide_eq_true_eq, Prod.mk.injEq]
  constructor
  · rintro ⟨item, hitem, list, ⟨hl, hlid⟩, c, ⟨hc, hcid⟩, ⟨⟨hcc, hws1⟩, hws2⟩, rfl, rfl⟩
    exact ⟨hitem, hc, hcid, list, hl, hlid, hcc, hws1, hws2⟩
  · rintro ⟨hitem, hc, hcid, list, hl, hlid, hcc, hws1, hws2⟩
    exact ⟨it, hitem, list, ⟨hl, hlid⟩, cat, ⟨hc, hcid⟩, ⟨⟨hcc, hws1⟩, hws2⟩, rfl, rfl⟩

/-- C6: `addGroceryItem` fails with NotFound when the acting user does
not exist (with the exact message carrying that user id), NotFound when
the category does not exist, NotFound when a supplied list reference
does not exist, and InvalidState when no list reference is supplied and
the acting user belongs to no couple; each failure happens before the
item insert, so no item row is produced (`.error` carries no successor
state). -/
theorem addGroceryItem_errors (db : DB) (now : Instant) (input : AddGroceryItemInput) :
    (db.users.filter (fun u => u.id == input.added_by_user_id) = [] →
      addGroceryItem db now input = .error (.userNotFound input.added_by_user_id)) ∧
    (db.users.filter (fun u => u.id == input.added_by_user_id) ≠ [] →
      db.categories.filter (fun c => c.id == input.category_id) = [] →
      addGroceryItem db now input = .error (.categoryNotFound input.category_id)) ∧
    (∀ lid, db.users.filter (fun u => u.id == input.added_by_user_id) ≠ [] →
      db.categories.filter (fun c => c.id == input.category_id) ≠ [] →
      input.list_id = some lid → lid ≠ 0 →
      db.lists.filter (fun l => l.id == lid) = [] →
      addGroceryItem db now input = .error (.listNotFound lid)) ∧
    (db.users.filter (fun u => u.id == input.added_by_user_id) ≠ [] →
      db.categories.filter (fun c => c.id == input.category_id) ≠ [] →
      input.list_id = none →
      db.couples.filter (fun c => c.user1_id == input.added_by_user_id) = [] →
      db.couples.filter (fun c => c.user2_id == input.added_by_user_id) = [] →
      addGroceryItem db now input = .error (.userNotInCouple input.added_by_user_id)) ∧
    (DomainError.userNotFound input.added_by_user_id).message =
      "User with id " ++ toString input.added_by_user_id ++ " does not exist" ∧
    (DomainError.userNotFound input.added_by_user_id).isNotFound = true ∧
    (DomainError.categoryNotFound input.category_id).isNotFound = true ∧
    (∀ lid, (DomainError.listNotFound lid).isNotFound = true) ∧
    (DomainError.userNotInCouple input.added_by_user_id).isInvalidState = true := by
  refine ⟨?_, ?_, ?_, ?_, rfl, rfl, rfl, fun _ => rfl, rfl⟩
  · intro hu
    simp only [addGroceryItem]
    rw [hu]
  · intro hu hcat
    obtain ⟨u, us, hus⟩ := List.exists_cons_of_ne_nil hu
    simp only [addGroceryItem]
    rw [hus, hcat]
  · intro lid hu hcat hlid hlid0 hlists
    obtain ⟨u, us, hus⟩ := List.exists_cons_of_ne_nil hu
    obtain ⟨c, cs, hcs⟩ := List.exists_cons_of_ne_nil hcat
    simp only [addGroceryItem, resolveList]
    rw [hus, hcs, hlid]
    simp only [jsTruthyNum]
    rw [if_pos (by simpa using hlid0)]
    simp only [Option.getD_some]
    rw [hlists]
  · intro hu hcat hlid hc1 hc2
    obtain ⟨u, us, hus⟩ := List.exists_cons_of_ne_nil hu
    obtain ⟨c, cs, hcs⟩ := List.exists_cons_of_ne_nil hcat
    simp only [addGroceryItem, resolveList]
    rw [hus, hcs, hlid, hc1, hc2]
    simp [jsTruthyNum]

/-- Witness for `addGroceryItem_errors`: adding as the nonexistent user
999 against `baseDB` fails with the NotFound message mentioning "999". -/
theorem addGroceryItem_errors_witness :
    addGroceryItem baseDB mondayNow unknownUserInput = .error (.userNotFound 999) ∧
    (DomainError.userNotFound 999).message = "User with id 999 does not exist" :=
  ⟨(addGroceryItem_errors baseDB mondayNow unknownUserInput).1 (by decide),
   (addGroceryItem_errors baseDB mondayNow unknownUserInput).2.2.2.2.1⟩

/-- Couple-path list resolution when no list exists for (first couple,
current week): a fresh week list is inserted. -/
theorem resolveList_creates (db : DB) (now : Instant) (input : AddGroceryItemInput)
    (C : Couple) (rest : List Couple)
    (hl : input.list_id = none)
    (hcpl : db.couples.filter (fun c => c.user1_id == input.added_by_user_id) ++
            db.couples.filter (fun c => c.user2_id == input.added_by_user_id) = C :: rest)
    (hnolist : db.lists.filter
        (fun l => l.couple_id == C.id && l.week_start == getCurrentWeekStart now) = []) :
    resolveList db now input = .ok (db.nextListId,
      { db with
        lists := db.lists ++ [freshWeekList db now C.id]
        nextListId := db.nextListId + 1 }) := by
  simp only [resolveList]
  rw [hl]
  rw [if_neg (by decide)]
  rw [hcpl]
  simp only [hnolist, freshWeekList]

/-- Couple-path list resolution when the current-week list already
exists: its first match is reused and the store is unchanged. -/
theorem resolveList_finds (db : DB) (now : Instant) (input : AddGroceryItemInput)
    (C : Couple) (rest : List Couple) (l : GroceryList) (ls : List GroceryList)
    (hl : input.list_id = none)
    (hcpl : db.couples.filter (fun c => c.user1_id == input.added_by_user_id) ++
            db.couples.filter (fun c => c.user2_id == input.added_by_user_id) = C :: rest)
    (hfound : db.lists.filter
        (fun x => x.couple_id == C.id && x.week_start == getCurrentWeekStart now) = l :: ls) :
    resolveList db now input = .ok (l.id, db) := by
  simp only [resolveList]
  rw [hl]
  rw [if_neg (by decide)]
  rw [hcpl]
  simp only [hfound]

/-- Successful-add shape: once user and category exist and the list is
resolved, the handler inserts exactly one item row. -/
theorem addGroceryItem_eq_ok (db : DB) (now : Instant) (input : AddGroceryItemInput)
    (listId : Int) (db1 : DB)
    (hu : db.users.filter (fun u => u.id == input.added_by_user_id) ≠ [])
    (hcat : db.categories.filter (fun c => c.id == input.category_id) ≠ [])
    (hres : resolveList db now input = .ok (listId, db1)) :
    addGroceryItem db now input = .ok (insertedItem db1 now input listId,
      { db1 with
        items := db1.items ++ [insertedItem db1 now input listId]
        nextItemId := db1.nextItemId + 1 }) := by
  obtain ⟨u, us, hus⟩ := List.exists_cons_of_ne_nil hu
  obtain ⟨c, cs, hcs⟩ := List.exists_cons_of_ne_nil hcat
  simp only [addGroceryItem]
  rw [hus, hcs, hres]

/-- C1: adding an item with no list reference for a user whose couple
resolution yields `C`, in a store with no list for (C, current week),
creates exactly one new list for (C, current week start) — the returned
item references it — and a second such call in the resulting store (same
current week) creates no further list and returns an item with the same
`list_id`. -/
theorem addGroceryItem_find_or_create (db : DB) (now now2 : Instant)
    (input input2 : AddGroceryItemInput) (C : Couple) (rest : List Couple)
    (hu : db.users.filter (fun u => u.id == input.added_by_user_id) ≠ [])
    (hcat : db.categories.filter (fun c => c.id == input.category_id) ≠ [])
    (hl : input.list_id = none)
    (hcpl : db.couples.filter (fun c => c.user1_id == input.added_by_user_id) ++
            db.couples.filter (fun c => c.user2_id == input.added_by_user_id) = C :: rest)
    (hnolist : db.lists.filter
        (fun l => l.couple_id == C.id && l.week_start == getCurrentWeekStart now) = [])
    (hu2 : input2.added_by_user_id = input.added_by_user_id)
    (hcat2 : db.categories.filter (fun c => c.id == input2.category_id) ≠ [])
    (hl2 : input2.list_id = none)
    (hweek : getCurrentWeekStart now2 = getCurrentWeekStart now) :
    ∃ item db1 item2 db2,
      addGroceryItem db now input = .ok (item, db1) ∧
      db1.lists = db.lists ++ [freshWeekList db now C.id] ∧
      item.list_id = db.nextListId ∧
      (freshWeekList db now C.id).id = db.nextListId ∧
      (freshWeekList db now C.id).couple_id = C.id ∧
      (freshWeekList db now C.id).week_start = getCurrentWeekStart now ∧
      addGroceryItem db1 now2 input2 = .ok (item2, db2) ∧
      db2.lists = db1.lists ∧
      item2.list_id = db.nextListId := by
  set dbA : DB := { db with
    lists := db.lists ++ [freshWeekList db now C.id]
    nextListId := db.nextListId + 1 } with hdbA
  have hres1 := resolveList_creates db now input C rest hl hcpl hnolist
  rw [← hdbA] at hres1
  have h1 := addGroceryItem_eq_ok db now input db.nextListId dbA hu hcat hres1
  set dbB : DB := { dbA with
    items := dbA.items ++ [insertedItem dbA now input db.nextListId]
    nextItemId := dbA.nextItemId + 1 } with hdbB
  have hfound2 : dbB.lists.filter
      (fun x => x.couple_id == C.id && x.week_start == getCurrentWeekStart now2)
      = freshWeekList db now C.id :: [] := by
    rw [hweek]
    have hLB : dbB.lists = db.lists ++ [freshWeekList db now C.id] := rfl
    rw [hLB, List.filter_append, hnolist]
    simp [freshWeekList]
  have hcpl2 : dbB.couples.filter (fun c => c.user1_id == input2.added_by_user_id) ++
      dbB.couples.filter (fun c => c.user2_id == input2.added_by_user_id) = C :: rest := by
    rw [hu2]
    exact hcpl
  have hres2 := resolveList_finds dbB now2 input2 C rest (freshWeekList db now C.id) []
    hl2 hcpl2 hfound2
  have hu2' : dbB.users.filter (fun u => u.id == input2.added_by_user_id) ≠ [] := by
    rw [hu2]
    exact hu
  have hcat2' : dbB.categories.filter (fun c => c.id == input2.category_id) ≠ [] := hcat2
  have h2 := addGroceryItem_eq_ok dbB now2 input2 (freshWeekList db now C.id).id dbB
    hu2' hcat2' hres2
  exact ⟨insertedItem dbA now input db.nextListId, dbB,
    insertedItem dbB now2 input2 (freshWeekList db now C.id).id,
    { dbB with
      items := dbB.items ++ [insertedItem dbB now2 input2 (freshWeekList db now C.id).id]
      nextItemId := dbB.nextItemId + 1 },
    h1, rfl, rfl, rfl, rfl, rfl, h2, rfl, rfl⟩

/-- Witness for `addGroceryItem_find_or_create`: user 1 of the single
couple of `baseDB` adds "Bananas" twice in the same week; the first call
creates the week list, the second reuses it. -/
theorem addGroceryItem_find_or_create_witness :
    ∃ item db1 item2 db2,
      addGroceryItem baseDB mondayNow bananasInput = .ok (item, db1) ∧
      db1.lists = baseDB.lists ++ [freshWeekList baseDB mondayNow 1] ∧
      item.list_id = baseDB.nextListId ∧
      (freshWeekList baseDB mondayNow 1).id = baseDB.nextListId ∧
      (freshWeekList baseDB mondayNow 1).couple_id = 1 ∧
      (freshWeekList baseDB mondayNow 1).week_start = getCurrentWeekStart mondayNow ∧
      addGroceryItem db1 tuesdayNow bananasInput = .ok (item2, db2) ∧
      db2.lists = db1.lists ∧
      item2.list_id = baseDB.nextListId :=
  addGroceryItem_find_or_create baseDB mondayNow tuesdayNow bananasInput bananasInput
    ⟨1, 1, 2, t0⟩ [] (by decide) (by decide) (by decide) (by decide) (by decide)
    (by decide) (by decide) (by decide) (by decide)

/-- C10: with no list reference and the acting user in several couples,
the handler deterministically prefers the first couple (in store order)
in which the user has the `user1` role, because the `user1_id` scan is
concatenated before the `user2_id` scan; the item lands on that couple's
current-week list. -/
theorem addGroceryItem_prefers_user1 (db : DB) (now : Instant)
    (input : AddGroceryItemInput) (C : Couple) (rest : List Couple)
    (hu : db.users.filter (fun u => u.id == input.added_by_user_id) ≠ [])
    (hcat : db.categories.filter (fun c => c.id == input.category_id) ≠ [])
    (hl : input.list_id = none)
    (hc1 : db.couples.filter (fun c => c.user1_id == input.added_by_user_id) = C :: rest) :
    ∃ item db1, addGroceryItem db now input = .ok (item, db1) ∧
      ∃ l ∈ db1.lists, l.id = item.list_id ∧ l.couple_id = C.id ∧
        l.week_start = getCurrentWeekStart now := by
  have hcpl : db.couples.filter (fun c => c.user1_id == input.added_by_user_id) ++
      db.couples.filter (fun c => c.user2_id == input.added_by_user_id)
      = C :: (rest ++ db.couples.filter (fun c => c.user2_id == input.added_by_user_id)) := by
    rw [hc1]
    rfl
  cases hfil : db.lists.filter
      (fun l => l.couple_id == C.id && l.week_start == getCurrentWeekStart now) with
  | nil =>
    have hres := resolveList_creates db now input C _ hl hcpl hfil
    have h1 := addGroceryItem_eq_ok db now input db.nextListId _ hu hcat hres
    refine ⟨_, _, h1, freshWeekList db now C.id, ?_, rfl, rfl, rfl⟩
    have hmem : freshWeekList db now C.id ∈ db.lists ++ [freshWeekList db now C.id] := by
      simp
    exact hmem
  | cons l ls =>
    have hres := resolveList_finds db now input C _ l ls hl hcpl hfil
    have h1 := addGroceryItem_eq_ok db now input l.id db hu hcat hres
    have hlmem : l ∈ db.lists.filter
        (fun x => x.couple_id == C.id && x.week_start == getCurrentWeekStart now) := by
      rw [hfil]
      exact List.mem_cons_self l ls
    obtain ⟨hmem, hprop⟩ := List.mem_filter.mp hlmem
    simp only [Bool.and_eq_true, beq_iff_eq] at hprop
    exact ⟨_, _, h1, l, hmem, rfl, hprop.1, hprop.2⟩

/-- Witness for `addGroceryItem_prefers_user1`: in `multiCoupleDB`, user
1 is `user2` of couple 1 (stored first) and `user1` of couple 2; the
item is attached to couple 2's fresh week list. -/
theorem addGroceryItem_prefers_user1_witness :
    ∃ item db1, addGroceryItem multiCoupleDB mondayNow bananasInput = .ok (item, db1) ∧
      ∃ l ∈ db1.lists, l.id = item.list_id ∧ l.couple_id = 2 ∧
        l.week_start = getCurrentWeekStart mondayNow :=
  addGroceryItem_prefers_user1 multiCoupleDB mondayNow bananasInput ⟨2, 1, 3, t0⟩ []
    (by decide) (by decide) (by decide) (by decide)

/-- `resolveList` never touches the items table. -/
theorem resolveList_items_eq (db : DB) (now : Instant) (input : AddGroceryItemInput)
    (lid : Int) (db1 : DB) (h : resolveList db now input = .ok (lid, db1)) :
    db1.items = db.items := by
  unfold resolveList at h
  dsimp only at h
  split at h
  · split at h
    · exact absurd h (by simp)
    · simp only [Except.ok.injEq, Prod.mk.injEq] at h
      obtain ⟨-, h2⟩ := h
      subst h2
      rfl
  · split at h
    · exact absurd h (by simp)
    · split at h
      · simp only [Except.ok.injEq, Prod.mk.injEq] at h
        obtain ⟨-, h2⟩ := h
        subst h2
        rfl
      · simp only [Except.ok.injEq, Prod.mk.injEq] at h
        obtain ⟨-, h2⟩ := h
        subst h2
        rfl

/-- A successful add appends exactly the inserted row, which starts
incomplete with both completion fields null. -/
theorem addGroceryItem_ok_shape (db : DB) (now : Instant) (input : AddGroceryItemInput)
    (item : GroceryItem) (db' : DB)
    (h : addGroceryItem db now input = .ok (item, db')) :
    db'.items = db.items ++ [item] ∧ item.is_completed = false ∧
    item.completed_by_user_id = none ∧ item.completed_at = none := by
  simp only [addGroceryItem] at h
  cases hu : db.users.filter (fun u => u.id == input.added_by_user_id) with
  | nil =>
    rw [hu] at h
    simp at h
  | cons u us =>
    rw [hu] at h
    cases hcat : db.categories.filter (fun c => c.id == input.category_id) with
    | nil =>
      rw [hcat] at h
      simp at h
    | cons c cs =>
      rw [hcat] at h
      cases hres : resolveList db now input with
      | error e =>
        rw [hres] at h
        simp at h
      | ok p =>
        obtain ⟨listId, db1⟩ := p
        rw [hres] at h
        have hitems := resolveList_items_eq db now input listId db1 hres
        simp only [Except.ok.injEq, Prod.mk.injEq] at h
        obtain ⟨hitem, hdb'⟩ := h
        subst hdb'
        subst hitem
        refine ⟨?_, rfl, rfl, rfl⟩
        show db1.items ++ [insertedItem db1 now input listId]
          = db.items ++ [insertedItem db1 now input listId]
        rw [hitems]

/-- A successful toggle maps `toggleUpdate` over the matching rows. -/
theorem toggleItemCompletion_ok_shape (db : DB) (now : Instant)
    (input : ToggleItemCompletionInput) (item : GroceryItem) (db' : DB)
    (h : toggleItemCompletion db now input = .ok (item, db')) :
    ∃ w : Bool, db'.items = db.items.map fun i =>
      if i.id == input.item_id then toggleUpdate w input.user_id now i else i := by
  simp only [toggleItemCompletion] at h
  cases hf : db.items.filter (fun i => i.id == input.item_id) with
  | nil =>
    rw [hf] at h
    simp at h
  | cons cur rest =>
    rw [hf] at h
    simp only [Except.ok.injEq, Prod.mk.injEq] at h
    obtain ⟨-, hdb'⟩ := h
    subst hdb'
    exact ⟨cur.is_completed, rfl⟩

/-- The row `toggleUpdate` writes always satisfies the completion
invariant, whichever way the flag flips. -/
theorem toggleUpdate_consistent (w : Bool) (u : Int) (n : Instant) (i : GroceryItem) :
    ItemConsistent (toggleUpdate w u n i) := by
  cases w <;> simp [ItemConsistent, toggleUpdate]

/-- C3: in every store reachable by the item operations from a store
satisfying the completion invariant, every grocery item has
`completed_by_user_id` and `completed_at` non-null exactly when
`is_completed` is true; the invariant is maintained by the operations,
not by a storage constraint. -/
theorem itemOps_preserve_invariant (db db' : DB)
    (hdb : DBConsistent db) (hreach : ReachableBy db db') : DBConsistent db' := by
  unfold ReachableBy at hreach
  induction hreach with
  | refl => exact hdb
  | tail hsteps hstep ih =>
    cases hstep with
    | @add now input item dbnext hadd =>
      obtain ⟨hitems, hic, hcb, hca⟩ := addGroceryItem_ok_shape _ _ _ _ _ hadd
      intro i hi
      rw [hitems] at hi
      rcases List.mem_append.mp hi with hin | hin
      · exact ih i hin
      · rw [List.mem_singleton] at hin
        subst hin
        simp [ItemConsistent, hic, hcb, hca]
    | @toggle now input item dbnext htog =>
      obtain ⟨w, hitems⟩ := toggleItemCompletion_ok_shape _ _ _ _ _ htog
      intro i hi
      rw [hitems] at hi
      obtain ⟨j, hj, rfl⟩ := List.mem_map.mp hi
      by_cases hp : (j.id == input.item_id) = true
      · rw [if_pos hp]
        exact toggleUpdate_consistent w input.user_id now j
      · rw [if_neg hp]
        exact ih j hj
    | remove input =>
      intro i hi
      exact ih i (List.mem_filter.mp hi).1

/-- Witness for `itemOps_preserve_invariant`: one remove step from the
consistent store `toggleCexDB`. -/
theorem itemOps_preserve_invariant_witness :
    DBConsistent (removeGroceryItem toggleCexDB ⟨1⟩).2 :=
  itemOps_preserve_invariant toggleCexDB (removeGroceryItem toggleCexDB ⟨1⟩).2
    (by decide) (Relation.ReflTransGen.single (ItemOpStep.remove toggleCexDB ⟨1⟩))

/-- C9 exposes a code bug: the declared input schema requires `list_id`
(`z.number()` without `.optional()`), so the RPC-boundary validation
rejects a payload that omits it, although the handler itself accepts the
absent reference and takes the couple-resolution path, as its tests
exercise by deleting the property. -/
theorem addItemSchema_rejects_missing_list_id :
    addGroceryItemInputSchemaAccepts bananasPayloadNoList = false ∧
    addGroceryItemInputSchemaAccepts { bananasPayloadNoList with list_id := some 1 } = true ∧
    bananasInput.list_id = none ∧
    (addGroceryItem baseDB mondayNow bananasInput).isOk = true := by
  decide
